import Mathlib

/-!
Shallow embedding of the bombman game simulation core (`bombman.py`),
covering the data model and the operations that the verified claims are
about: map tiles and walkability queries, the bomb-explosion flame walk,
bomb fuse timing, the flying-bomb landing step, flame burnout and block
reversion in the map update, the lazily recomputed danger map, the
bomb-placement slice of the player input reaction, and the item
distribution performed by the map constructor.

Conventions of the embedding:
* Python ints are `Int` (or `Nat` where the source value is a count);
  milliseconds are `Int`.
* Sub-tile float positions are abstracted to their containing tile
  (`position_to_tile`, i.e. the floor): every claim formalised here only
  reads positions through `get_tile_position`.
* The 2D `danger_map` array is represented as a function from tile
  coordinates to `Int`; the source only ever reads in-bounds cells
  (`get_danger_value` returns 0 for out-of-bounds queries first).
* Nondeterminism of `random.choice` is captured by an explicit oracle
  giving the chosen index at each call.
-/

/-- Tile kinds, `MapTile.TILE_FLOOR / TILE_BLOCK / TILE_WALL`. -/
inductive TileKind where
  | floor
  | block
  | wall
deriving DecidableEq, Repr

/-- Special objects on a tile, `MapTile.SPECIAL_OBJECT_*`. -/
inductive SpecialObject where
  | trampoline
  | teleportA
  | teleportB
  | arrowUp
  | arrowRight
  | arrowDown
  | arrowLeft
  | lava
deriving DecidableEq, Repr

/-- A flame instance on a tile (`Flame`).  The owning-player back reference
and the directional sprite tag are render/attribution data irrelevant to the
claims and are omitted; `time_to_burnout` starts at 1000 ms. -/
structure Flame where
  time_to_burnout : Int
deriving DecidableEq, Repr

/-- `Flame.__init__`: a freshly created flame burns out after 1000 ms. -/
def Flame.init : Flame := { time_to_burnout := 1000 }

/-- A map tile (`MapTile`): kind, optional item (item codes as in
`GameMap.ITEM_*`), optional special object, the `to_be_destroyed` flag and
the list of flames currently on the tile. -/
structure MapTile where
  kind : TileKind
  item : Option Nat
  special_object : Option SpecialObject
  to_be_destroyed : Bool
  flames : List Flame
deriving DecidableEq, Repr

/-- A plain floor tile, the default state of `MapTile.__init__`. -/
def MapTile.init : MapTile :=
  { kind := .floor, item := none, special_object := none,
    to_be_destroyed := false, flames := [] }

/-- `MapTile.should_not_walk`: wall or block kind, at least one flame, or a
lava special object. -/
def MapTile.should_not_walk (t : MapTile) : Bool :=
  (t.kind == .wall || t.kind == .block)
    || decide (1 ≤ t.flames.length)
    || (t.special_object == some .lava)

/-- Bomb movement modes, `Bomb.BOMB_*`. -/
inductive BombMovement where
  | rollingUp
  | rollingRight
  | rollingDown
  | rollingLeft
  | flying
  | noMovement
deriving DecidableEq, Repr

/-- `BombFlightInfo`: distances are in tiles.  The fractional accumulation
of `distance_travelled` by `dt / 1000 * FLYING_SPEED` is not needed by the
claims (they concern the step taken once the distance is reached), so the
field is kept as an integer tile count. -/
structure BombFlightInfo where
  total_distance_to_travel : Int
  distance_travelled : Int
  direction : Int × Int
deriving DecidableEq, Repr

/-- A bomb (`Bomb`).  `tile` is the bomb's `get_tile_position()`; the owner
back reference is kept as the owner's player number. -/
structure Bomb where
  tile : Int × Int
  time_of_existence : Int
  flame_length : Nat
  player_number : Nat
  explodes_in : Int
  detonator_time : Int
  has_spring : Bool
  movement : BombMovement
  has_exploded : Bool
  flight_info : BombFlightInfo
deriving DecidableEq, Repr

/-- `Bomb.BOMB_EXPLODES_IN`. -/
def BOMB_EXPLODES_IN : Int := 3000

/-- `Bomb.DETONATOR_EXPIRATION_TIME`. -/
def DETONATOR_EXPIRATION_TIME : Int := 20000

/-- `Bomb.has_detonator`. -/
def Bomb.has_detonator (b : Bomb) : Bool :=
  decide (0 < b.detonator_time)
    && decide (b.time_of_existence < DETONATOR_EXPIRATION_TIME)

/-- `Bomb.time_until_explosion`. -/
def Bomb.time_until_explosion (b : Bomb) : Int :=
  b.explodes_in + b.detonator_time - b.time_of_existence

/-- Player disease kinds, `Player.DISEASE_*`. -/
inductive Disease where
  | noDisease
  | shortFlame
  | slowMovement
  | reverseControls
  | diarrhea
  | switchPlayers
  | fastBomb
  | noBomb
  | earthquake
deriving DecidableEq, Repr

/-- A player (`Player`), restricted to the fields the claims read: tile
position abstraction, life/air state (for `get_players_at_tile`), the bomb
allowance, item ownership flags and the transient input-tick bookkeeping. -/
structure Player where
  number : Nat
  tile : Int × Int
  is_dead : Bool
  is_in_air : Bool
  bombs_left : Int
  flame_length : Nat
  has_spring : Bool
  has_multibomb : Bool
  has_throwing_glove : Bool
  has_boxing_glove : Bool
  has_shoe : Bool
  disease : Disease
  wait_for_bomb_release : Bool
  wait_for_special_release : Bool
  direction_vector : Int × Int
deriving DecidableEq, Repr

/-- `Player.bomb_exploded`: replenish the bomb allowance. -/
def Player.bomb_exploded (p : Player) : Player :=
  { p with bombs_left := p.bombs_left + 1 }

/-- `GameMap.MAP_SIZE = Position(15, 11)`: column count. -/
def MAP_COLS : Int := 15

/-- `GameMap.MAP_SIZE = Position(15, 11)`: row count. -/
def MAP_ROWS : Int := 11

/-- `GameMap.SAFE_DANGER_VALUE`. -/
def SAFE_DANGER_VALUE : Int := 5000

/-- The map state (`GameMap`), restricted to the parts the claims read:
the tile grid (row-major, 11 rows of 15 tiles as in the source), the bomb
and player lists, the block counter and the lazily rebuilt danger map with
its validity flag. -/
structure GameState where
  tiles : List (List MapTile)
  bombs : List Bomb
  players : List Player
  number_of_blocks : Int
  danger_map : Int × Int → Int
  danger_map_is_up_to_date : Bool

/-- `GameMap.tile_is_withing_map` (source spelling): component-wise
`(0, 0) <= pos <= MAP_SIZE - 1`. -/
def tile_is_withing_map (p : Int × Int) : Bool :=
  decide (0 ≤ p.1) && decide (0 ≤ p.2)
    && decide (p.1 ≤ MAP_COLS - 1) && decide (p.2 ≤ MAP_ROWS - 1)

/-- `GameMap.get_tile`: `self.tiles[row][col]`.  The source only calls this
behind a bounds check; out-of-bounds access yields the default tile here. -/
def get_tile (s : GameState) (p : Int × Int) : MapTile :=
  ((s.tiles.getD p.2.toNat []).getD p.1.toNat MapTile.init)

/-- `GameMap.bombs_on_tile`: bombs whose movement is not flying whose tile
position equals the given tile. -/
def bombs_on_tile (s : GameState) (p : Int × Int) : List Bomb :=
  s.bombs.filter (fun b => b.movement ≠ BombMovement.flying && b.tile == p)

/-- `GameMap.bomb_on_tile`: first bomb of `bombs_on_tile`, if any. -/
def bomb_on_tile (s : GameState) (p : Int × Int) : Option Bomb :=
  (bombs_on_tile s p).head?

/-- `GameMap.tile_has_bomb`. -/
def tile_has_bomb (s : GameState) (p : Int × Int) : Bool :=
  (bomb_on_tile s p).isSome

/-- `GameMap.tile_has_teleport`. -/
def tile_has_teleport (s : GameState) (p : Int × Int) : Bool :=
  tile_is_withing_map p
    && ((get_tile s p).special_object == some .teleportA
        || (get_tile s p).special_object == some .teleportB)

/-- `GameMap.tile_has_flame`. -/
def tile_has_flame (s : GameState) (p : Int × Int) : Bool :=
  tile_is_withing_map p && decide (1 ≤ (get_tile s p).flames.length)

/-- `GameMap.get_players_at_tile`: players at the tile that are neither
dead nor in the air. -/
def get_players_at_tile (s : GameState) (p : Int × Int) : List Player :=
  s.players.filter (fun q => !q.is_dead && !q.is_in_air && q.tile == p)

/-- `GameMap.tile_has_player`: the number of players at the tile (the
source returns the length and uses it as a truth value). -/
def tile_has_player (s : GameState) (p : Int × Int) : Nat :=
  (get_players_at_tile s p).length

/-- `GameMap.tile_is_walkable`: false out of bounds; otherwise floor kind
or `to_be_destroyed`, and no (non-flying) bomb on the tile. -/
def tile_is_walkable (s : GameState) (p : Int × Int) : Bool :=
  if !tile_is_withing_map p then false
  else
    tile_is_withing_map p
      && ((get_tile s p).kind == .floor || (get_tile s p).to_be_destroyed)
      && !tile_has_bomb s p

/-- `Bomb.explodes` together with the `Player.bomb_exploded` notification:
if the bomb has not yet exploded, notify the owning player (replenishing
`bombs_left`) and set `has_exploded`; otherwise do nothing.  Every code
path that destroys a bomb (fuse timeout, lava, chain reaction, remote
detonation) goes through `GameMap.bomb_explodes`, which calls this. -/
def Bomb.explodes (b : Bomb) (p : Player) : Bomb × Player :=
  if !b.has_exploded then ({ b with has_exploded := true }, p.bomb_exploded)
  else (b, p)

/-- Repeated triggering of `Bomb.explodes` on the same bomb/owner pair. -/
def explodes_iter : Nat → Bomb × Player → Bomb × Player
  | 0, s => s
  | n + 1, s => explodes_iter n (Bomb.explodes s.1 s.2)

/-- The bomb-timer portion of `GameMap.__update_bombs` for one bomb kept in
one place across updates: each update adds `dt` to `time_of_existence` and
the bomb explodes when (not flying and) the accumulated time strictly
exceeds `explodes_in + detonator_time`, or when (not flying and) its tile
has lava (a stationary bomb sits at its tile center, so
`is_near_tile_center` holds).  Returns the 1-based index of the update in
which the bomb explodes, if any; `k` is the index of the current update. -/
def bomb_fuse_run_from (on_lava : Bool) (k : Nat) : Bomb → List Int → Option Nat
  | _, [] => none
  | b, dt :: rest =>
    let b' := { b with time_of_existence := b.time_of_existence + dt }
    if b'.movement ≠ BombMovement.flying
        ∧ b'.explodes_in + b'.detonator_time < b'.time_of_existence then
      some k
    else if b'.movement ≠ BombMovement.flying ∧ on_lava = true then
      some k
    else
      bomb_fuse_run_from on_lava (k + 1) b' rest

/-- `bomb_fuse_run_from` started at the first update. -/
def bomb_fuse_run (on_lava : Bool) (b : Bomb) (dts : List Int) : Option Nat :=
  bomb_fuse_run_from on_lava 1 b dts

/-- The per-direction bound test of the flame spreading loop in
`GameMap.bomb_explodes`: `(increment == -1 and axis_position >= map_limit)
or (increment == 1 and axis_position <= map_limit)`. -/
def walk_bound_ok (limit inc a : Int) : Bool :=
  (inc == -1 && decide (limit ≤ a)) || (inc == 1 && decide (a ≤ limit))

/-- One direction of the flame spreading walk of `GameMap.bomb_explodes`,
projected to the moving axis: starting from the axis coordinate `a`
adjacent to the bomb, take up to `n` (the flame length) steps; at each
step stop if the bound test fails (map edge), stop without a flame on a
wall, place a flame and stop on a block, place a flame and continue on
floor.  Returns the axis coordinates of the tiles that receive a flame.
(The source interleaves the four directions inside one loop over `i`; the
per-direction state is independent and the directions touch disjoint
tiles, so each direction is embedded as its own walk.  The terminal
retagging of the last flame's sprite direction is a render hint and is
not represented.) -/
def flame_walk (kindAt : Int → TileKind) (limit inc : Int) : Int → Nat → List Int
  | _, 0 => []
  | a, n + 1 =>
    if walk_bound_ok limit inc a then
      match kindAt a with
      | .wall => []
      | .block => [a]
      | .floor => a :: flame_walk kindAt limit inc (a + inc) n
    else []

/-- The full set of tiles receiving a flame from `GameMap.bomb_explodes`:
the bomb's own tile (the "all" flame) followed by the four directional
walks (up, right, down, left) with the axis start positions, map limits
and increments of the source. -/
def bomb_explodes_flame_tiles (kindAt : Int × Int → TileKind) (origin : Int × Int)
    (n : Nat) : List (Int × Int) :=
  origin ::
    ((flame_walk (fun r => kindAt (origin.1, r)) 0 (-1) (origin.2 - 1) n).map
        (fun r => (origin.1, r))
      ++ (flame_walk (fun c => kindAt (c, origin.2)) (MAP_COLS - 1) 1 (origin.1 + 1) n).map
        (fun c => (c, origin.2))
      ++ (flame_walk (fun r => kindAt (origin.1, r)) (MAP_ROWS - 1) 1 (origin.2 + 1) n).map
        (fun r => (origin.1, r))
      ++ (flame_walk (fun c => kindAt (c, origin.2)) 0 (-1) (origin.1 - 1) n).map
        (fun c => (c, origin.2)))

/-- `Bomb.send_flying`: compute the travel axis (the row axis when the
columns agree, the column axis otherwise), the tile distance and the unit
direction, reset the distance travelled, and move the bomb to the
destination tile reduced modulo the map size (over-the-border flight). -/
def send_flying (b : Bomb) (dest : Int × Int) : Bomb :=
  let cur := b.tile
  let axisIsRow := cur.1 == dest.1
  let total : Int := if axisIsRow then |cur.2 - dest.2| else |cur.1 - dest.1|
  let dirVal : Int :=
    if axisIsRow then (if dest.2 < cur.2 then -1 else 1)
    else (if dest.1 < cur.1 then -1 else 1)
  let dir : Int × Int := if axisIsRow then (0, dirVal) else (dirVal, 0)
  { b with
      movement := .flying,
      flight_info :=
        { total_distance_to_travel := total, distance_travelled := 0, direction := dir },
      tile := (dest.1 % MAP_COLS, dest.2 % MAP_ROWS) }

/-- Write one tile of the grid (row `p.2`, column `p.1`). -/
def grid_set (g : List (List MapTile)) (p : Int × Int) (t : MapTile) :
    List (List MapTile) :=
  g.set p.2.toNat ((g.getD p.2.toNat []).set p.1.toNat t)

/-- Clear the item of the tile at `p` (`self.get_tile_at(bomb_tile).item = None`). -/
def clear_item_at (s : GameState) (p : Int × Int) : GameState :=
  { s with tiles := grid_set s.tiles p { get_tile s p with item := none } }

/-- The landing branch of `GameMap.__update_bombs` for a flying bomb whose
`distance_travelled` has reached `total_distance_to_travel`: when
`not (tile_is_walkable or tile_has_player or tile_has_teleport)` holds at
the bomb's tile it is sent flying one further tile in its flight
direction, otherwise it lands (`movement = BOMB_NO_MOVEMENT`) and the item
on the landing tile is destroyed. -/
def flying_arrival (s : GameState) (b : Bomb) : Bomb × GameState :=
  let t := b.tile
  if !(tile_is_walkable s t || decide (0 < tile_has_player s t) || tile_has_teleport s t) then
    (send_flying b (t.1 + b.flight_info.direction.1, t.2 + b.flight_info.direction.2), s)
  else
    ({ b with movement := .noMovement }, clear_item_at s t)

/-- The flame burnout pass of the tile loop in `GameMap.update`: each
flame's `time_to_burnout` is reduced by `dt` and the flame is removed once
it drops strictly below 0.  The source removes inside an index loop that
still increments `i` after a removal, so the element immediately following
a removed flame is skipped (left untouched) in that update; this behaviour
is kept. -/
def update_flames (dt : Int) : List Flame → List Flame
  | [] => []
  | f :: rest =>
    let f' : Flame := { time_to_burnout := f.time_to_burnout - dt }
    if f'.time_to_burnout < 0 then
      match rest with
      | [] => []
      | g :: rest2 => g :: update_flames dt rest2
    else f' :: update_flames dt rest

/-- The reversion test at the top of the tile loop in `GameMap.update`:
`tile.to_be_destroyed and tile.kind == TILE_BLOCK and not tile_has_flame`. -/
def tile_revert_cond (t : MapTile) : Bool :=
  t.to_be_destroyed && t.kind == .block && t.flames.isEmpty

/-- The body of the tile loop of `GameMap.update` for one tile, on a map
whose bomb list is empty (so the detonate-bombs-inside-flame branch is a
no-op): first revert a to-be-destroyed block with no remaining flame to
floor (contributing -1 to the block counter), then — when at least one
flame is present — mark a block tile to-be-destroyed (or destroy the item
of a floor tile; these assignments are idempotent and run once per flame
iteration in the source) and advance the flames by `update_flames`.
Returns the updated tile and its contribution to `number_of_blocks`. -/
def update_tile (dt : Int) (t : MapTile) : MapTile × Int :=
  let step1 : MapTile × Int :=
    if tile_revert_cond t then
      ({ t with kind := .floor, to_be_destroyed := false }, -1)
    else (t, 0)
  let t1 := step1.1
  if t1.flames.isEmpty then (t1, step1.2)
  else
    let t2 :=
      if t1.kind == .block then { t1 with to_be_destroyed := true }
      else if t1.kind == .floor && t1.item.isSome then { t1 with item := none }
      else t1
    ({ t2 with flames := update_flames dt t2.flames }, step1.2)

/-- One row of the tile loop of `GameMap.update` (no-bombs case). -/
def update_tile_row (dt : Int) : List MapTile → List MapTile × Int
  | [] => ([], 0)
  | t :: rest =>
    let head := update_tile dt t
    let tail := update_tile_row dt rest
    (head.1 :: tail.1, head.2 + tail.2)

/-- The full tile loop of `GameMap.update` (no-bombs case): updated grid and
the total change of `number_of_blocks`. -/
def update_tiles_grid (dt : Int) : List (List MapTile) → List (List MapTile) × Int
  | [] => ([], 0)
  | row :: rest =>
    let head := update_tile_row dt row
    let tail := update_tiles_grid dt rest
    (head.1 :: tail.1, head.2 + tail.2)

/-- `GameMap._update_danger_entry`: the danger-map reset, 0 on tiles whose
`should_not_walk` holds, the safe sentinel elsewhere.  (The source builds
the entry only for in-bounds tiles; the function representation extends it
harmlessly, `get_danger_value` never reads out of bounds.) -/
def _update_danger_entry (s : GameState) : Int × Int → Int :=
  fun p => if (get_tile s p).should_not_walk then 0 else SAFE_DANGER_VALUE

/-- A min-merging write into the danger map:
`danger_map[row][col] = min(danger_map[row][col], value)`. -/
def danger_min_write (d : Int × Int → Int) (p : Int × Int) (v : Int) :
    Int × Int → Int :=
  fun q => if q = p then min (d p) v else d q

/-- One direction of the bounded danger flood in
`GameMap.update_danger_map`: walk up to the flame length; stop as soon as
the tile is not walkable or not within the map, otherwise min-write the
bomb's danger value and advance.  (The source interleaves the four
directions in one loop; their state is independent and min-writes commute,
so each direction is embedded as its own walk.) -/
def danger_spread_dir (s : GameState) (v : Int) (inc : Int × Int) :
    Int × Int → Nat → (Int × Int → Int) → (Int × Int → Int)
  | _, 0, d => d
  | pos, n + 1, d =>
    if !tile_is_walkable s pos || !tile_is_withing_map pos then d
    else
      danger_spread_dir s v inc (pos.1 + inc.1, pos.2 + inc.2) n
        (danger_min_write d pos v)

/-- The danger value a bomb contributes in `GameMap.update_danger_map`:
100 when it carries a live detonator (detonators can fire at any moment),
its true `time_until_explosion` otherwise. -/
def bomb_danger_value (b : Bomb) : Int :=
  if b.has_detonator then 100 else b.time_until_explosion

/-- The contribution of one bomb in `GameMap.update_danger_map`: its danger
value is min-written at the bomb tile and flooded along the four
directions up to the flame length. -/
def danger_for_bomb (s : GameState) (b : Bomb) (d : Int × Int → Int) :
    Int × Int → Int :=
  let v := bomb_danger_value b
  let d0 := danger_min_write d b.tile v
  let d1 := danger_spread_dir s v (0, -1) (b.tile.1, b.tile.2 - 1) b.flame_length d0
  let d2 := danger_spread_dir s v (1, 0) (b.tile.1 + 1, b.tile.2) b.flame_length d1
  let d3 := danger_spread_dir s v (0, 1) (b.tile.1, b.tile.2 + 1) b.flame_length d2
  danger_spread_dir s v (-1, 0) (b.tile.1 - 1, b.tile.2) b.flame_length d3

/-- `GameMap.update_danger_map`: reset the grid via `_update_danger_entry`,
then fold the contribution of every live bomb. -/
def update_danger_map (s : GameState) : Int × Int → Int :=
  s.bombs.foldl (fun d b => danger_for_bomb s b d) (_update_danger_entry s)

/-- `GameMap.get_danger_value`: lazily rebuild the danger map when the
up-to-date flag is cleared, mark it up to date, then answer 0 for
out-of-bounds queries and the stored cell otherwise.  Returns the value
and the (possibly recomputed) state. -/
def get_danger_value (s : GameState) (p : Int × Int) : Int × GameState :=
  let s1 :=
    if s.danger_map_is_up_to_date then s
    else { s with danger_map := update_danger_map s, danger_map_is_up_to_date := true }
  if !tile_is_withing_map p then (0, s1)
  else (s1.danger_map p, s1)

/-- The abstract per-player input actions consumed by
`Player.react_to_inputs` that the bomb-placement slice models.  The special
action (detonator / boxing) is outside this slice: it never adds a bomb to
the map and can only touch `bombs_left` through the remote detonation of a
previously laid detonator bomb, which the formalised scenario's player
(holding no items) cannot own. -/
inductive InputAction where
  | up
  | right
  | down
  | left
  | bomb
  | bombDouble
deriving DecidableEq, Repr

/-- The transient per-tick intent flags recomputed by
`Player.react_to_inputs` / `Player.__manage_input_actions`. -/
structure InputTickState where
  putting_bomb : Bool
  putting_multibomb : Bool
  throwing : Bool
  bomb_was_pressed : Bool
deriving DecidableEq, Repr

/-- The action loop of `Player.__manage_input_actions`, restricted to the
bomb-related effects for a tick in which the player does not leave their
tile (sub-tile movement within one tile does not change any of the checks
below, which all go through `position_to_tile`): the bomb action raises
`putting_bomb` only when the player is not waiting for a key release, has
an allowance left, is not standing on a tile with a bomb, and is free of
the no-bomb disease; the double action raises `throwing` with a throwing
glove and otherwise `putting_multibomb` with the multibomb item. -/
def manage_input_actions (s : GameState) (p : Player) :
    List InputAction → InputTickState → InputTickState
  | [], st => st
  | a :: rest, st =>
    let st :=
      if a = .bomb then
        let st := { st with bomb_was_pressed := true }
        if !p.wait_for_bomb_release && decide (1 ≤ p.bombs_left)
            && !tile_has_bomb s p.tile && !(p.disease == .noBomb) then
          { st with putting_bomb := true }
        else st
      else if a = .bombDouble then
        if p.has_throwing_glove then { st with throwing := true }
        else if p.has_multibomb then { st with putting_multibomb := true }
        else st
      else st
    manage_input_actions s p rest st

/-- `Player.lay_bomb`: create a bomb owned by the player at the given tile
(the player's own tile when none is given), append it to the map's bomb
list, and consume one bomb allowance; the short-flame disease forces flame
length 1 and the fast-bomb disease the short fuse.  (The detonator arming
of the last lines is not represented: the modelled player owns no
detonator charges.) -/
def lay_bomb (s : GameState) (p : Player) (tc : Option (Int × Int)) :
    GameState × Player :=
  let new_bomb : Bomb :=
    { tile := tc.getD p.tile,
      time_of_existence := 0,
      flame_length := if p.disease == .shortFlame then 1 else p.flame_length,
      player_number := p.number,
      explodes_in := if p.disease == .fastBomb then 800 else BOMB_EXPLODES_IN,
      detonator_time := 0,
      has_spring := p.has_spring,
      movement := .noMovement,
      has_exploded := false,
      flight_info :=
        { total_distance_to_travel := 0, distance_travelled := 0, direction := (0, 0) } }
  ({ s with bombs := s.bombs ++ [new_bomb] },
    { p with bombs_left := p.bombs_left - 1 })

/-- Replace the first occurrence of a bomb in the list (the mutation of an
aliased bomb object in the source). -/
def replace_first_bomb (old new : Bomb) : List Bomb → List Bomb
  | [] => []
  | b :: rest => if b = old then new :: rest else b :: replace_first_bomb old new rest

/-- The multibomb loop of `Player.react_to_inputs`: starting one tile ahead,
while allowance remains, stop at the first non-walkable or player-occupied
tile, otherwise lay a bomb there and step on.  `fuel` bounds the loop by
the remaining allowance, which strictly decreases at every laid bomb. -/
def put_multibomb_from (inc current : Int × Int) :
    GameState → Player → Int → Nat → GameState × Player
  | s, p, _, 0 => (s, p)
  | s, p, i, fuel + 1 =>
    if 0 < p.bombs_left then
      let next := (current.1 + inc.1 * i, current.2 + inc.2 * i)
      if !tile_is_walkable s next || decide (0 < tile_has_player s next) then (s, p)
      else
        let sp := lay_bomb s p (some next)
        put_multibomb_from inc current sp.1 sp.2 (i + 1) fuel
    else (s, p)

/-- The bomb-related tail of `Player.react_to_inputs` for a tick in which
the player stays on their tile: diarrhea injects a bomb action, the action
loop computes the intent flags, `wait_for_bomb_release` is cleared when no
bomb key was seen, a raised `putting_bomb` lays a bomb unless the tile
holds a bomb or a teleport, then the throw or the multibomb intent is
resolved.  Returns the updated map and player. -/
def react_to_inputs_bomb_slice (s : GameState) (p : Player)
    (input_actions : List InputAction) : GameState × Player :=
  let actions :=
    if p.disease == .diarrhea then input_actions ++ [.bomb] else input_actions
  let flags := manage_input_actions s p actions
    { putting_bomb := false, putting_multibomb := false,
      throwing := false, bomb_was_pressed := false }
  let p1 :=
    if !flags.bomb_was_pressed then { p with wait_for_bomb_release := false } else p
  let sp :=
    if flags.putting_bomb && !tile_has_bomb s p1.tile && !tile_has_teleport s p1.tile then
      lay_bomb s p1 none
    else (s, p1)
  let s2 := sp.1
  let p2 := sp.2
  if flags.throwing then
    match bomb_on_tile s2 p2.tile with
    | none => (s2, p2)
    | some b =>
      let forward := (p2.tile.1 + p2.direction_vector.1 * 4,
                      p2.tile.2 + p2.direction_vector.2 * 4)
      ({ s2 with bombs := replace_first_bomb b (send_flying b forward) s2.bombs },
        { p2 with wait_for_bomb_release := true })
  else if flags.putting_multibomb then
    put_multibomb_from p2.direction_vector p2.tile s2 p2 1 p2.bombs_left.toNat
  else (s2, p2)

/-- The item distribution loop of `GameMap.__init__`: for every letter of
the map-items string pick a random block tile, hide the item under it and
remove the tile from the pool.  `random.choice` on an exhausted pool raises
`IndexError`, modelled as `none`; the random pick is an oracle index taken
modulo the pool size, `k` counts the calls.  Returns the (tile, item)
assignments on success. -/
def place_map_items (choice : Nat → Nat) :
    List Nat → List Nat → Nat → Option (List (Nat × Nat))
  | [], _, _ => some []
  | item :: rest, block_tiles, k =>
    match block_tiles with
    | [] => none
    | _ :: _ =>
      let idx := choice k % block_tiles.length
      let tile := block_tiles.getD idx 0
      match place_map_items choice rest (block_tiles.eraseIdx idx) (k + 1) with
      | none => none
      | some l => some ((tile, item) :: l)

/-- A sample player used to instantiate witnesses. -/
def sample_player : Player :=
  { number := 0, tile := (1, 1), is_dead := false, is_in_air := false,
    bombs_left := 1, flame_length := 1, has_spring := false,
    has_multibomb := false, has_throwing_glove := false,
    has_boxing_glove := false, has_shoe := false, disease := .noDisease,
    wait_for_bomb_release := false, wait_for_special_release := false,
    direction_vector := (0, 1) }

/-- A sample freshly laid stationary bomb used to instantiate witnesses. -/
def sample_bomb : Bomb :=
  { tile := (1, 1), time_of_existence := 0, flame_length := 1,
    player_number := 0, explodes_in := BOMB_EXPLODES_IN, detonator_time := 0,
    has_spring := false, movement := .noMovement, has_exploded := false,
    flight_info :=
      { total_distance_to_travel := 0, distance_travelled := 0, direction := (0, 0) } }

/-- A sample all-floor map with no bombs and no players. -/
def sample_state : GameState :=
  { tiles := List.replicate 11 (List.replicate 15 MapTile.init),
    bombs := [], players := [], number_of_blocks := 0,
    danger_map := fun _ => SAFE_DANGER_VALUE, danger_map_is_up_to_date := false }

lemma Bomb.explodes_of_exploded (b : Bomb) (p : Player) (h : b.has_exploded = true) :
    Bomb.explodes b p = (b, p) := by
  simp [Bomb.explodes, h]

lemma explodes_iter_of_exploded (n : Nat) :
    ∀ (b : Bomb) (p : Player), b.has_exploded = true →
      explodes_iter n (b, p) = (b, p) := by
  induction n with
  | zero => intro b p _; rfl
  | succ m ih =>
    intro b p h
    simp only [explodes_iter, Bomb.explodes_of_exploded b p h]
    exact ih b p h

/-- C1.  Over a bomb's lifetime the owning player's `bombs_left` is
replenished by `bomb_exploded` exactly once: however many times the
destruction of the bomb is triggered (fuse timeout, lava, a chain reaction
and remote detonation all reach `Bomb.explodes` through
`GameMap.bomb_explodes`), a bomb that has not yet exploded raises the
owner's allowance by exactly 1 and every further trigger leaves it
unchanged, guarded by `has_exploded`. -/
theorem claim_C1_bomb_exploded_once (b : Bomb) (p : Player) (n : Nat)
    (hb : b.has_exploded = false) (hn : 1 ≤ n) :
    (explodes_iter n (b, p)).2.bombs_left = p.bombs_left + 1 ∧
      (explodes_iter n (b, p)).1.has_exploded = true := by
  obtain ⟨m, rfl⟩ : ∃ m, n = m + 1 := ⟨n - 1, (Nat.succ_pred_eq_of_pos hn).symm⟩
  have hstep : Bomb.explodes b p =
      ({ b with has_exploded := true }, p.bomb_exploded) := by
    simp [Bomb.explodes, hb]
  simp only [explodes_iter, hstep]
  rw [explodes_iter_of_exploded m _ _ rfl]
  exact ⟨rfl, rfl⟩

/-- Witness for C1: two triggers on a fresh bomb replenish once. -/
theorem claim_C1_witness :
    sample_bomb.has_exploded = false ∧ 1 ≤ 2 ∧
      ((explodes_iter 2 (sample_bomb, sample_player)).2.bombs_left =
          sample_player.bombs_left + 1 ∧
        (explodes_iter 2 (sample_bomb, sample_player)).1.has_exploded = true) :=
  ⟨rfl, by decide, claim_C1_bomb_exploded_once sample_bomb sample_player 2 rfl (by decide)⟩

lemma tile_has_bomb_iff (s : GameState) (p : Int × Int) :
    tile_has_bomb s p = true ↔
      ∃ b ∈ s.bombs, b.movement ≠ BombMovement.flying ∧ b.tile = p := by
  unfold tile_has_bomb bomb_on_tile bombs_on_tile
  rw [Option.isSome_iff_exists]
  constructor
  · rintro ⟨b, hb⟩
    have hmem : b ∈ s.bombs.filter
        (fun b => b.movement ≠ BombMovement.flying && b.tile == p) :=
      List.mem_of_mem_head? hb
    rcases List.mem_filter.1 hmem with ⟨hmem2, hpred⟩
    simp only [Bool.and_eq_true, decide_eq_true_eq, beq_iff_eq] at hpred
    exact ⟨b, hmem2, hpred.1, hpred.2⟩
  · rintro ⟨b, hmem, hmov, htile⟩
    have hne : s.bombs.filter
        (fun b => b.movement ≠ BombMovement.flying && b.tile == p) ≠ [] := by
      intro hnil
      have := List.filter_eq_nil_iff.1 hnil b hmem
      simp only [Bool.and_eq_true, decide_eq_true_eq, beq_iff_eq, not_and] at this
      exact this hmov htile
    rcases List.exists_mem_of_ne_nil _ hne with ⟨c, hc⟩
    cases hhd : (s.bombs.filter
        (fun b => b.movement ≠ BombMovement.flying && b.tile == p)).head? with
    | none => exact absurd (List.head?_eq_none_iff.1 hhd) hne
    | some c2 => exact ⟨c2, rfl⟩

/-- C6.  `tile_is_walkable` is false out of bounds, and on an in-bounds
tile it holds exactly when the tile's kind is floor or its
`to_be_destroyed` flag is set and no non-flying bomb occupies the tile. -/
theorem claim_C6_tile_is_walkable (s : GameState) (p : Int × Int) :
    (tile_is_withing_map p = false → tile_is_walkable s p = false) ∧
      (tile_is_withing_map p = true →
        (tile_is_walkable s p = true ↔
          (((get_tile s p).kind = TileKind.floor ∨ (get_tile s p).to_be_destroyed = true) ∧
            ¬∃ b ∈ s.bombs, b.movement ≠ BombMovement.flying ∧ b.tile = p))) := by
  constructor
  · intro h
    simp [tile_is_walkable, h]
  · intro h
    rw [← tile_has_bomb_iff s p]
    simp [tile_is_walkable, h]

/-- Witness for C6 at an in-bounds and an out-of-bounds coordinate. -/
theorem claim_C6_witness :
    (tile_is_withing_map (1, 1) = true ∧
      (tile_is_walkable sample_state (1, 1) = true ↔
        (((get_tile sample_state (1, 1)).kind = TileKind.floor ∨
            (get_tile sample_state (1, 1)).to_be_destroyed = true) ∧
          ¬∃ b ∈ sample_state.bombs,
            b.movement ≠ BombMovement.flying ∧ b.tile = (1, 1)))) ∧
      (tile_is_withing_map (-1, 0) = false ∧
        tile_is_walkable sample_state (-1, 0) = false) :=
  ⟨⟨by decide, (claim_C6_tile_is_walkable sample_state (1, 1)).2 (by decide)⟩,
    ⟨by decide, (claim_C6_tile_is_walkable sample_state (-1, 0)).1 (by decide)⟩⟩

/-- C8.  `get_danger_value` is idempotent within a tick: a second call on
the state returned by the first call returns the same value and the very
same state (the first call recomputes the danger grid at most once and
marks it up to date, the second only reads). -/
theorem claim_C8_danger_idempotent (s : GameState) (p : Int × Int) :
    (get_danger_value (get_danger_value s p).2 p).1 = (get_danger_value s p).1 ∧
      (get_danger_value (get_danger_value s p).2 p).2 = (get_danger_value s p).2 ∧
      (get_danger_value s p).2.danger_map_is_up_to_date = true := by
  by_cases h : s.danger_map_is_up_to_date <;>
    by_cases h2 : tile_is_withing_map p <;>
      simp [get_danger_value, h, h2]
lemma take_sum_nonneg {l : List Int} (h : ∀ dt ∈ l, 0 ≤ dt) (n : Nat) :
    0 ≤ (l.take n).sum :=
  List.sum_nonneg (fun x hx => h x (List.mem_of_mem_take hx))

lemma bomb_fuse_run_from_step_explode (b : Bomb) (k0 : Nat) (dt : Int) (rest : List Int)
    (hmov : b.movement ≠ BombMovement.flying)
    (hfuse : b.explodes_in + b.detonator_time = 3000)
    (hexp : 3000 < b.time_of_existence + dt) :
    bomb_fuse_run_from false k0 b (dt :: rest) = some k0 := by
  simp only [bomb_fuse_run_from]
  rw [if_pos]
  exact ⟨hmov, by simp only [hfuse]; omega⟩

lemma bomb_fuse_run_from_step_tick (b : Bomb) (k0 : Nat) (dt : Int) (rest : List Int)
    (hfuse : b.explodes_in + b.detonator_time = 3000)
    (hexp : ¬3000 < b.time_of_existence + dt) :
    bomb_fuse_run_from false k0 b (dt :: rest) =
      bomb_fuse_run_from false (k0 + 1)
        { b with time_of_existence := b.time_of_existence + dt } rest := by
  simp only [bomb_fuse_run_from]
  rw [if_neg, if_neg]
  · simp
  · intro hcontra
    apply hexp
    have := hcontra.2
    simp only [hfuse] at this
    omega

lemma bomb_fuse_run_from_none (dts : List Int) :
    ∀ (b : Bomb) (k0 : Nat), b.movement ≠ BombMovement.flying →
      b.explodes_in + b.detonator_time = 3000 →
      b.time_of_existence ≤ 3000 → (∀ dt ∈ dts, 0 ≤ dt) →
      (bomb_fuse_run_from false k0 b dts = none ↔
        b.time_of_existence + dts.sum ≤ 3000) := by
  induction dts with
  | nil =>
    intro b k0 hmov hfuse ht _
    simpa [bomb_fuse_run_from] using ht
  | cons dt rest ih =>
    intro b k0 hmov hfuse ht hpos
    have hrest : ∀ x ∈ rest, 0 ≤ x := fun x hx => hpos x (List.mem_cons_of_mem _ hx)
    have hsum : 0 ≤ rest.sum := List.sum_nonneg hrest
    by_cases hexp : 3000 < b.time_of_existence + dt
    · rw [bomb_fuse_run_from_step_explode b k0 dt rest hmov hfuse hexp]
      simp only [List.sum_cons]
      constructor
      · intro h; cases h
      · intro h; exfalso; linarith
    · rw [bomb_fuse_run_from_step_tick b k0 dt rest hfuse hexp]
      rw [ih { b with time_of_existence := b.time_of_existence + dt } (k0 + 1) hmov hfuse
        (by simpa using not_lt.1 hexp) hrest]
      simp only [List.sum_cons]
      constructor
      · intro h; linarith
      · intro h; linarith

lemma bomb_fuse_run_from_some (dts : List Int) :
    ∀ (b : Bomb) (k0 k : Nat), b.movement ≠ BombMovement.flying →
      b.explodes_in + b.detonator_time = 3000 →
      b.time_of_existence ≤ 3000 → (∀ dt ∈ dts, 0 ≤ dt) →
      (bomb_fuse_run_from false k0 b dts = some k ↔
        ∃ j : Nat, k = k0 + j ∧ j < dts.length ∧
          3000 < b.time_of_existence + (dts.take (j + 1)).sum ∧
          b.time_of_existence + (dts.take j).sum ≤ 3000) := by
  induction dts with
  | nil =>
    intro b k0 k hmov hfuse ht _
    simp [bomb_fuse_run_from]
  | cons dt rest ih =>
    intro b k0 k hmov hfuse ht hpos
    have hrest : ∀ x ∈ rest, 0 ≤ x := fun x hx => hpos x (List.mem_cons_of_mem _ hx)
    by_cases hexp : 3000 < b.time_of_existence + dt
    · rw [bomb_fuse_run_from_step_explode b k0 dt rest hmov hfuse hexp]
      constructor
      · intro h
        have hk : k0 = k := by injection h
        subst hk
        refine ⟨0, by omega, by simp, ?_, ?_⟩
        · simp only [List.take_succ_cons, List.take_zero, List.sum_cons, List.sum_nil]
          linarith
        · simpa using ht
      · rintro ⟨j, rfl, hjlen, h1, h2⟩
        rcases j with _ | j2
        · simp
        · exfalso
          have hnn := take_sum_nonneg hrest j2
          simp only [List.take_succ_cons, List.sum_cons] at h2
          linarith
    · rw [bomb_fuse_run_from_step_tick b k0 dt rest hfuse hexp]
      rw [ih { b with time_of_existence := b.time_of_existence + dt } (k0 + 1) k hmov hfuse
        (by simpa using not_lt.1 hexp) hrest]
      constructor
      · rintro ⟨j, rfl, hjlen, h1, h2⟩
        refine ⟨j + 1, by omega, by simpa using Nat.succ_lt_succ hjlen, ?_, ?_⟩
        · simp only [List.take_succ_cons, List.sum_cons]
          simp only [] at h1
          linarith
        · simp only [List.take_succ_cons, List.sum_cons]
          simp only [] at h2
          linarith
      · rintro ⟨j, rfl, hjlen, h1, h2⟩
        rcases j with _ | j2
        · exfalso
          simp only [List.take_succ_cons, List.take_zero, List.sum_cons, List.sum_nil] at h1
          simp only [List.take_zero, List.sum_nil] at h2
          linarith
        · refine ⟨j2, by omega, by simp only [List.length_cons] at hjlen; omega, ?_, ?_⟩
          · simp only [List.take_succ_cons, List.sum_cons] at h1
            simp only []
            linarith
          · simp only [List.take_succ_cons, List.sum_cons] at h2
            simp only []
            linarith

/-- C3.  A stationary bomb with the default 3000 ms fuse, no detonator and
no lava under it has not exploded on any update on which its accumulated
`time_of_existence` is at most 3000 ms, and it explodes exactly on the
first update on which the accumulated time strictly exceeds 3000 ms: the
run over the update deltas `dts` reports explosion at step `k` iff the
prefix sum through `k` exceeds 3000 while the prefix sum through `k - 1`
does not, and reports no explosion iff the whole sum stays at most 3000. -/
theorem claim_C3_fuse_strict (b : Bomb) (dts : List Int)
    (hmov : b.movement = BombMovement.noMovement)
    (hfuse : b.explodes_in = BOMB_EXPLODES_IN)
    (hdet : b.detonator_time = 0)
    (htime : b.time_of_existence = 0)
    (hpos : ∀ dt ∈ dts, 0 ≤ dt) :
    (∀ k : Nat, bomb_fuse_run false b dts = some k ↔
      (1 ≤ k ∧ k ≤ dts.length ∧ 3000 < (dts.take k).sum ∧ (dts.take (k - 1)).sum ≤ 3000)) ∧
    (bomb_fuse_run false b dts = none ↔ dts.sum ≤ 3000) := by
  have hmov2 : b.movement ≠ BombMovement.flying := by rw [hmov]; intro h; cases h
  have hfuse2 : b.explodes_in + b.detonator_time = 3000 := by
    rw [hfuse, hdet, BOMB_EXPLODES_IN]; norm_num
  have ht : b.time_of_existence ≤ 3000 := by rw [htime]; norm_num
  constructor
  · intro k
    rw [bomb_fuse_run, bomb_fuse_run_from_some dts b 1 k hmov2 hfuse2 ht hpos]
    constructor
    · rintro ⟨j, rfl, hjlen, h1, h2⟩
      rw [htime] at h1 h2
      have e1 : 1 + j = j + 1 := by omega
      have e2 : 1 + j - 1 = j := by omega
      refine ⟨by omega, by omega, ?_, ?_⟩
      · rw [e1]; linarith
      · rw [e2]; linarith
    · rintro ⟨hk1, hk2, h3, h4⟩
      have e1 : k - 1 + 1 = k := by omega
      refine ⟨k - 1, by omega, by omega, ?_, ?_⟩
      · rw [htime, e1]; linarith
      · rw [htime]; linarith
  · rw [bomb_fuse_run, bomb_fuse_run_from_none dts b 1 hmov2 hfuse2 ht hpos, htime]
    constructor
    · intro h; linarith
    · intro h; linarith

/-- Witness for C3: with updates of 1500, 1500 and 1 ms the bomb explodes
exactly on the third update (prefix sum 3001 > 3000, previous 3000). -/
theorem claim_C3_witness :
    sample_bomb.movement = BombMovement.noMovement ∧
      sample_bomb.explodes_in = BOMB_EXPLODES_IN ∧
      sample_bomb.detonator_time = 0 ∧
      sample_bomb.time_of_existence = 0 ∧
      (∀ dt ∈ [(1500 : Int), 1500, 1], 0 ≤ dt) ∧
      (bomb_fuse_run false sample_bomb [(1500 : Int), 1500, 1] = some 3 ↔
        (1 ≤ 3 ∧ 3 ≤ ([(1500 : Int), 1500, 1]).length ∧
          3000 < (([(1500 : Int), 1500, 1]).take 3).sum ∧
          (([(1500 : Int), 1500, 1]).take (3 - 1)).sum ≤ 3000)) :=
  ⟨rfl, rfl, rfl, rfl, by decide,
    (claim_C3_fuse_strict sample_bomb [(1500 : Int), 1500, 1] rfl rfl rfl rfl
      (by decide)).1 3⟩

lemma flame_walk_mem (kindAt : Int → TileKind) (limit inc : Int) :
    ∀ (n : Nat) (a x : Int),
      x ∈ flame_walk kindAt limit inc a n ↔
        ∃ k : Nat, k < n ∧ x = a + k * inc ∧
          (∀ j : Nat, j ≤ k → walk_bound_ok limit inc (a + j * inc) = true) ∧
          (∀ j : Nat, j < k → kindAt (a + j * inc) = TileKind.floor) ∧
          kindAt x ≠ TileKind.wall := by
  intro n
  induction n with
  | zero =>
    intro a x
    simp [flame_walk]
  | succ m ih =>
    intro a x
    by_cases hb : walk_bound_ok limit inc a = true
    · cases hkind : kindAt a with
      | wall =>
        simp only [flame_walk, hb, if_true, hkind, List.not_mem_nil, false_iff]
        rintro ⟨k, hk, hx, hbound, hfloor, hwall⟩
        rcases k with _ | k2
        · apply hwall
          simpa [hx] using hkind
        · have := hfloor 0 (Nat.succ_pos k2)
          simp only [Nat.cast_zero, zero_mul, add_zero, hkind] at this
          cases this
      | block =>
        simp only [flame_walk, hb, if_true, hkind, List.mem_singleton]
        constructor
        · rintro rfl
          refine ⟨0, Nat.succ_pos m, by simp, ?_, ?_, ?_⟩
          · intro j hj
            have hj0 : j = 0 := Nat.le_zero.1 hj
            simpa [hj0] using hb
          · intro j hj
            cases hj
          · simp only [hkind]
            intro h; cases h
        · rintro ⟨k, hk, hx, hbound, hfloor, hwall⟩
          rcases k with _ | k2
          · simpa using hx
          · have := hfloor 0 (Nat.succ_pos k2)
            simp only [Nat.cast_zero, zero_mul, add_zero, hkind] at this
            cases this
      | floor =>
        simp only [flame_walk, hb, if_true, hkind, List.mem_cons]
        rw [ih (a + inc) x]
        constructor
        · rintro (rfl | ⟨k, hk, hx, hbound, hfloor, hwall⟩)
          · refine ⟨0, Nat.succ_pos m, by simp, ?_, ?_, ?_⟩
            · intro j hj
              have hj0 : j = 0 := Nat.le_zero.1 hj
              simpa [hj0] using hb
            · intro j hj
              cases hj
            · simp only [hkind]
              intro h; cases h
          · refine ⟨k + 1, Nat.succ_lt_succ hk, ?_, ?_, ?_, hwall⟩
            · rw [hx]
              push_cast
              ring
            · intro j hj
              rcases j with _ | j2
              · simpa using hb
              · have h2 := hbound j2 (Nat.le_of_succ_le_succ hj)
                have e : a + (j2 + 1 : Nat) * inc = a + inc + (j2 : Nat) * inc := by
                  push_cast; ring
                rw [e]
                exact h2
            · intro j hj
              rcases j with _ | j2
              · simpa using hkind
              · have h2 := hfloor j2 (Nat.lt_of_succ_lt_succ hj)
                have e : a + (j2 + 1 : Nat) * inc = a + inc + (j2 : Nat) * inc := by
                  push_cast; ring
                rw [e]
                exact h2
        · rintro ⟨k, hk, hx, hbound, hfloor, hwall⟩
          rcases k with _ | k2
          · left
            simpa using hx
          · right
            refine ⟨k2, Nat.lt_of_succ_lt_succ hk, ?_, ?_, ?_, hwall⟩
            · rw [hx]
              push_cast
              ring
            · intro j hj
              have h2 := hbound (j + 1) (Nat.succ_le_succ hj)
              have e : a + (j + 1 : Nat) * inc = a + inc + (j : Nat) * inc := by
                push_cast; ring
              rw [e] at h2
              exact h2
            · intro j hj
              have h2 := hfloor (j + 1) (Nat.succ_lt_succ hj)
              have e : a + (j + 1 : Nat) * inc = a + inc + (j : Nat) * inc := by
                push_cast; ring
              rw [e] at h2
              exact h2
    · rw [Bool.not_eq_true] at hb
      simp only [flame_walk, hb, Bool.false_eq_true, if_false, List.not_mem_nil, false_iff]
      rintro ⟨k, hk, hx, hbound, hfloor, hwall⟩
      have := hbound 0 (Nat.zero_le k)
      simp only [Nat.cast_zero, zero_mul, add_zero, hb] at this
      cases this

lemma flame_walk_all_floor (kindAt : Int → TileKind) (limit inc : Int) :
    ∀ (n : Nat) (a : Int),
      (∀ j : Nat, j < n → walk_bound_ok limit inc (a + j * inc) = true ∧
        kindAt (a + j * inc) = TileKind.floor) →
      flame_walk kindAt limit inc a n = (List.range n).map (fun k : Nat => a + (k : Int) * inc) := by
  intro n
  induction n with
  | zero =>
    intro a _
    simp [flame_walk]
  | succ m ih =>
    intro a h
    have h0 := h 0 (Nat.succ_pos m)
    simp only [Nat.cast_zero, zero_mul, add_zero] at h0
    simp only [flame_walk, h0.1, if_true, h0.2]
    rw [ih (a + inc) ?_]
    · rw [List.range_succ_eq_map, List.map_cons, List.map_map]
      simp only [Nat.cast_zero, zero_mul, add_zero]
      refine congrArg (fun l => a :: l) ?_
      apply List.map_congr_left
      intro k _
      simp only [Function.comp_apply]
      push_cast
      ring
    · intro j hj
      have h2 := h (j + 1) (Nat.succ_lt_succ hj)
      have e : a + (j + 1 : Nat) * inc = a + inc + (j : Nat) * inc := by
        push_cast; ring
      rw [e] at h2
      exact h2

/-- C2.  The flame placement of `GameMap.bomb_explodes`: the bomb's own
tile receives a flame, and in each axis direction independently the walk
places a flame exactly on the tiles at distance `k ∈ [1, N]` (walk index
`k - 1 < N`) such that every tile up to distance `k` passes the map-bound
test, every strictly earlier tile is open floor, and the tile itself is
not a wall — so the walk stops at the map edge, stops at a wall without
placing a flame there or beyond, places a flame on a block but stops
there, and on an all-floor ray it places exactly `N` flames. -/
theorem claim_C2_flame_spread (kindAt : Int → TileKind) (limit inc a : Int) (n : Nat)
    (kindAt2 : Int × Int → TileKind) (origin : Int × Int) :
    (∀ x : Int, x ∈ flame_walk kindAt limit inc a n ↔
        ∃ k : Nat, k < n ∧ x = a + k * inc ∧
          (∀ j : Nat, j ≤ k → walk_bound_ok limit inc (a + j * inc) = true) ∧
          (∀ j : Nat, j < k → kindAt (a + j * inc) = TileKind.floor) ∧
          kindAt x ≠ TileKind.wall) ∧
      origin ∈ bomb_explodes_flame_tiles kindAt2 origin n ∧
      ((∀ j : Nat, j < n → walk_bound_ok limit inc (a + j * inc) = true ∧
          kindAt (a + j * inc) = TileKind.floor) →
        flame_walk kindAt limit inc a n = (List.range n).map (fun k : Nat => a + (k : Int) * inc)) :=
  ⟨fun x => flame_walk_mem kindAt limit inc n a x,
    List.mem_cons_self _ _,
    flame_walk_all_floor kindAt limit inc n a⟩

/-- Witness for C2: an all-floor rightward ray of length 2 from column 1
receives flames exactly on columns 1 and 2. -/
theorem claim_C2_witness :
    (∀ j : Nat, j < 2 → walk_bound_ok 14 1 ((1 : Int) + j * 1) = true ∧
        (fun _ : Int => TileKind.floor) ((1 : Int) + j * 1) = TileKind.floor) ∧
      flame_walk (fun _ : Int => TileKind.floor) 14 1 1 2 =
        (List.range 2).map (fun k : Nat => (1 : Int) + (k : Int) * 1) :=
  ⟨by decide,
    (claim_C2_flame_spread (fun _ : Int => TileKind.floor) 14 1 1 2
      (fun _ : Int × Int => TileKind.floor) (0, 0)).2.2 (by decide)⟩

lemma update_tile_delta (dt : Int) (t : MapTile) :
    (update_tile dt t).2 = if tile_revert_cond t then -1 else 0 := by
  unfold update_tile
  by_cases h : tile_revert_cond t = true
  · simp only [h, if_true]
    split <;> rfl
  · have h2 : tile_revert_cond t = false := by simpa using h
    simp only [h2, Bool.false_eq_true, if_false]
    split <;> rfl

lemma update_tile_row_delta (dt : Int) : ∀ row : List MapTile,
    (update_tile_row dt row).2 = -((row.countP tile_revert_cond : Int)) := by
  intro row
  induction row with
  | nil => simp [update_tile_row]
  | cons t rest ih =>
    simp only [update_tile_row, update_tile_delta, List.countP_cons, ih]
    by_cases h : tile_revert_cond t = true
    · simp only [h, if_true]
      push_cast
      ring
    · have h2 : tile_revert_cond t = false := by simpa using h
      simp only [h2, Bool.false_eq_true, if_false]
      push_cast
      ring

lemma update_tiles_grid_delta (dt : Int) : ∀ g : List (List MapTile),
    (update_tiles_grid dt g).2 =
      -(((g.map (fun row => row.countP tile_revert_cond)).sum : Int)) := by
  intro g
  induction g with
  | nil => simp [update_tiles_grid]
  | cons row rest ih =>
    simp only [update_tiles_grid, update_tile_row_delta, ih, List.map_cons, List.sum_cons]
    ring

/-- C5.  In the tile pass of `GameMap.update`: a block tile carrying at
least one flame is marked `to_be_destroyed` and keeps kind block with no
change to the block counter on that update; a to-be-destroyed block tile
whose flames are all gone (its last flame burnt out on an earlier update)
becomes floor with `to_be_destroyed` cleared and contributes exactly -1 to
the block counter; over the whole grid the counter changes by exactly
minus the number of tiles in that reverting condition. -/
theorem claim_C5_block_revert (dt : Int) (t : MapTile) (g : List (List MapTile)) :
    (t.kind = TileKind.block → t.flames ≠ [] →
      ((update_tile dt t).1.to_be_destroyed = true ∧
        (update_tile dt t).1.kind = TileKind.block ∧ (update_tile dt t).2 = 0)) ∧
      (t.kind = TileKind.block → t.to_be_destroyed = true → t.flames = [] →
        ((update_tile dt t).1.kind = TileKind.floor ∧
          (update_tile dt t).1.to_be_destroyed = false ∧ (update_tile dt t).2 = -1)) ∧
      (update_tiles_grid dt g).2 =
        -(((g.map (fun row => row.countP tile_revert_cond)).sum : Int)) := by
  refine ⟨?_, ?_, update_tiles_grid_delta dt g⟩
  · intro hkind hflames
    have hne : t.flames.isEmpty = false := by
      cases hf : t.flames with
      | nil => exact absurd hf hflames
      | cons a l => rfl
    have hrc : tile_revert_cond t = false := by
      unfold tile_revert_cond
      rw [hne]
      simp
    unfold update_tile
    simp [hrc, hne, hkind]
  · intro hkind htbd hflames
    have hrc : tile_revert_cond t = true := by
      unfold tile_revert_cond
      simp [hkind, htbd, hflames]
    unfold update_tile
    simp [hrc, hflames]

/-- A block tile with one fresh flame on it. -/
def c5_tile_burning : MapTile :=
  { kind := .block, item := none, special_object := none,
    to_be_destroyed := false, flames := [{ time_to_burnout := 1000 }] }

/-- A to-be-destroyed block tile whose last flame has burnt out. -/
def c5_tile_burnt : MapTile :=
  { kind := .block, item := none, special_object := none,
    to_be_destroyed := true, flames := [] }

/-- Witness for C5 on a burning and a burnt-out block tile. -/
theorem claim_C5_witness :
    (c5_tile_burning.kind = TileKind.block ∧ c5_tile_burning.flames ≠ [] ∧
      ((update_tile 500 c5_tile_burning).1.to_be_destroyed = true ∧
        (update_tile 500 c5_tile_burning).1.kind = TileKind.block ∧
        (update_tile 500 c5_tile_burning).2 = 0)) ∧
      (c5_tile_burnt.kind = TileKind.block ∧ c5_tile_burnt.to_be_destroyed = true ∧
        c5_tile_burnt.flames = [] ∧
        ((update_tile 500 c5_tile_burnt).1.kind = TileKind.floor ∧
          (update_tile 500 c5_tile_burnt).1.to_be_destroyed = false ∧
          (update_tile 500 c5_tile_burnt).2 = -1)) :=
  ⟨⟨rfl, by decide, (claim_C5_block_revert 500 c5_tile_burning []).1 rfl (by decide)⟩,
    ⟨rfl, rfl, rfl, (claim_C5_block_revert 500 c5_tile_burnt []).2.1 rfl rfl rfl⟩⟩

lemma danger_spread_dir_zero (s : GameState) (v : Int) (inc : Int × Int) (p : Int × Int)
    (hv : 0 ≤ v) :
    ∀ (n : Nat) (pos : Int × Int) (d : Int × Int → Int), d p = 0 →
      danger_spread_dir s v inc pos n d p = 0 := by
  intro n
  induction n with
  | zero =>
    intro pos d hd
    exact hd
  | succ m ih =>
    intro pos d hd
    simp only [danger_spread_dir]
    split
    · exact hd
    · apply ih
      unfold danger_min_write
      by_cases hp : p = pos
      · rw [if_pos hp]
        rw [hp] at hd
        rw [hd]
        exact min_eq_left hv
      · rw [if_neg hp]
        exact hd

lemma danger_for_bomb_zero (s : GameState) (b : Bomb) (p : Int × Int)
    (hv : 0 ≤ bomb_danger_value b) (d : Int × Int → Int) (hd : d p = 0) :
    danger_for_bomb s b d p = 0 := by
  unfold danger_for_bomb
  apply danger_spread_dir_zero s _ _ _ hv
  apply danger_spread_dir_zero s _ _ _ hv
  apply danger_spread_dir_zero s _ _ _ hv
  apply danger_spread_dir_zero s _ _ _ hv
  unfold danger_min_write
  by_cases hp : p = b.tile
  · rw [if_pos hp]
    rw [hp] at hd
    rw [hd]
    exact min_eq_left hv
  · rw [if_neg hp]
    exact hd

lemma danger_foldl_zero (s : GameState) (p : Int × Int) :
    ∀ (l : List Bomb) (d : Int × Int → Int), d p = 0 →
      (∀ b ∈ l, 0 ≤ bomb_danger_value b) →
      (l.foldl (fun d b => danger_for_bomb s b d) d) p = 0 := by
  intro l
  induction l with
  | nil =>
    intro d hd _
    exact hd
  | cons b rest ih =>
    intro d hd hb
    simp only [List.foldl_cons]
    exact ih _ (danger_for_bomb_zero s b p (hb b (List.mem_cons_self _ _)) d hd)
      (fun c hc => hb c (List.mem_cons_of_mem _ hc))

/-- C10 (amended).  The danger-grid reset `_update_danger_entry`
initializes exactly the tiles satisfying `should_not_walk` to 0 and every
other tile to the 5000 ms safe sentinel; and for an in-bounds tile
satisfying `should_not_walk`, `get_danger_value` reports 0 whenever every
live bomb's contributed danger value is nonnegative (always true except
for a flying bomb already past its fuse) — in particular with no live
bombs at all. -/
theorem claim_C10_amended (s : GameState) (p : Int × Int)
    (hin : tile_is_withing_map p = true)
    (hw : (get_tile s p).should_not_walk = true)
    (hflag : s.danger_map_is_up_to_date = false)
    (hb : ∀ b ∈ s.bombs, 0 ≤ bomb_danger_value b) :
    (get_danger_value s p).1 = 0 ∧
      (∀ q : Int × Int, _update_danger_entry s q =
        if (get_tile s q).should_not_walk then 0 else SAFE_DANGER_VALUE) := by
  constructor
  · have h0 : _update_danger_entry s p = 0 := by
      unfold _update_danger_entry
      rw [hw]
      simp
    unfold get_danger_value
    simp only [hflag, Bool.false_eq_true, if_false, hin, Bool.not_true]
    exact danger_foldl_zero s p s.bombs (_update_danger_entry s) h0 hb
  · intro q
    rfl

/-- A floor tile carrying the lava special object. -/
def lava_tile : MapTile :=
  { kind := .floor, item := none, special_object := some .lava,
    to_be_destroyed := false, flames := [] }

/-- An all-floor grid with lava at tile (5, 5). -/
def c10_tiles : List (List MapTile) :=
  (List.replicate 11 (List.replicate 15 MapTile.init)).set 5
    ((List.replicate 15 MapTile.init).set 5 lava_tile)

/-- A flying bomb over the lava tile that is already 1000 ms past its
fuse (flying bombs skip the fuse check, so this state is reachable by a
bomb that keeps rebounding). -/
def c10_bomb : Bomb :=
  { tile := (5, 5), time_of_existence := 4000, flame_length := 1,
    player_number := 0, explodes_in := 3000, detonator_time := 0,
    has_spring := false, movement := .flying, has_exploded := false,
    flight_info :=
      { total_distance_to_travel := 1, distance_travelled := 1, direction := (1, 0) } }

/-- The map state for the C10 counterexample. -/
def c10_state : GameState :=
  { tiles := c10_tiles, bombs := [c10_bomb], players := [],
    number_of_blocks := 0, danger_map := fun _ => 0,
    danger_map_is_up_to_date := false }

/-- Counterexample to C10 as stated: the in-bounds lava tile (5, 5)
satisfies `should_not_walk`, yet its danger value is -1000, not 0 — the
flying bomb over it contributes a negative `time_until_explosion` that the
min-merge writes below the reset value. -/
theorem claim_C10_counterexample :
    tile_is_withing_map (5, 5) = true ∧
      (get_tile c10_state (5, 5)).should_not_walk = true ∧
      (get_danger_value c10_state (5, 5)).1 = -1000 ∧
      ¬(get_danger_value c10_state (5, 5)).1 = 0 := by
  decide

/-- The C10 counterexample state with the bomb removed. -/
def c10w_state : GameState :=
  { tiles := c10_tiles, bombs := [], players := [],
    number_of_blocks := 0, danger_map := fun _ => 0,
    danger_map_is_up_to_date := false }

/-- Witness for the amended C10 on the lava tile of a bomb-free map. -/
theorem claim_C10_witness :
    tile_is_withing_map (5, 5) = true ∧
      (get_tile c10w_state (5, 5)).should_not_walk = true ∧
      c10w_state.danger_map_is_up_to_date = false ∧
      (∀ b ∈ c10w_state.bombs, 0 ≤ bomb_danger_value b) ∧
      ((get_danger_value c10w_state (5, 5)).1 = 0 ∧
        (∀ q : Int × Int, _update_danger_entry c10w_state q =
          if (get_tile c10w_state q).should_not_walk then 0 else SAFE_DANGER_VALUE)) :=
  ⟨by decide, by decide, rfl, by simp [c10w_state],
    claim_C10_amended c10w_state (5, 5) (by decide) (by decide) rfl
      (by simp [c10w_state])⟩

/-- A floor tile carrying a teleport (class A). -/
def teleport_tile : MapTile :=
  { kind := .floor, item := none, special_object := some .teleportA,
    to_be_destroyed := false, flames := [] }

/-- An all-floor grid with a teleport at tile (5, 5). -/
def c4_tiles : List (List MapTile) :=
  (List.replicate 11 (List.replicate 15 MapTile.init)).set 5
    ((List.replicate 15 MapTile.init).set 5 teleport_tile)

/-- The map state for the C4 evaluation: no bombs, no players, a teleport
on the otherwise free floor tile (5, 5). -/
def c4_state : GameState :=
  { tiles := c4_tiles, bombs := [], players := [],
    number_of_blocks := 0, danger_map := fun _ => SAFE_DANGER_VALUE,
    danger_map_is_up_to_date := false }

/-- A flying bomb that has just reached its flight destination (5, 5),
flying rightward. -/
def c4_bomb : Bomb :=
  { tile := (5, 5), time_of_existence := 500, flame_length := 1,
    player_number := 0, explodes_in := 3000, detonator_time := 0,
    has_spring := false, movement := .flying, has_exploded := false,
    flight_info :=
      { total_distance_to_travel := 3, distance_travelled := 3, direction := (1, 0) } }

/-- C4, evaluation of the code at the failing input.  The landing tile
(5, 5) is walkable, carries no player, but has a teleport — per the claim
an occupied landing tile (not walkable, or a player on it, or a teleport)
must keep the bomb flying one further tile.  The code's condition is
`not (tile_is_walkable or tile_has_player or tile_has_teleport)` — the
negation misparenthesised over the whole disjunction — so here it takes
the else branch and lands the bomb (`movement = BOMB_NO_MOVEMENT`)
instead of rebounding. -/
theorem claim_C4_lands_on_teleport :
    tile_is_walkable c4_state (5, 5) = true ∧
      tile_has_teleport c4_state (5, 5) = true ∧
      tile_has_player c4_state (5, 5) = 0 ∧
      (flying_arrival c4_state c4_bomb).1.movement = BombMovement.noMovement := by
  decide

lemma manage_input_actions_flags (s : GameState) (p : Player)
    (hcond : tile_has_bomb s p.tile = true ∨ p.bombs_left < 1)
    (hm : p.has_multibomb = false) (ht : p.has_throwing_glove = false) :
    ∀ (acts : List InputAction) (st : InputTickState),
      (manage_input_actions s p acts st).putting_bomb = st.putting_bomb ∧
        (manage_input_actions s p acts st).putting_multibomb = st.putting_multibomb ∧
        (manage_input_actions s p acts st).throwing = st.throwing := by
  have hguard : (!p.wait_for_bomb_release && decide (1 ≤ p.bombs_left)
      && !tile_has_bomb s p.tile && !(p.disease == Disease.noBomb)) = false := by
    rcases hcond with h | h
    · simp [h]
    · have h2 : ¬(1 ≤ p.bombs_left) := by omega
      simp [h2]
  intro acts
  induction acts with
  | nil =>
    intro st
    exact ⟨rfl, rfl, rfl⟩
  | cons a rest ih =>
    intro st
    cases a with
    | bomb =>
      simp only [manage_input_actions, reduceCtorEq, if_true, if_false, hguard,
        Bool.false_eq_true, reduceIte]
      exact ih _
    | bombDouble =>
      simp only [manage_input_actions, reduceCtorEq, if_true, if_false, hm, ht,
        Bool.false_eq_true, reduceIte]
      exact ih _
    | up =>
      simp only [manage_input_actions, reduceCtorEq, if_false, reduceIte]
      exact ih _
    | right =>
      simp only [manage_input_actions, reduceCtorEq, if_false, reduceIte]
      exact ih _
    | down =>
      simp only [manage_input_actions, reduceCtorEq, if_false, reduceIte]
      exact ih _
    | left =>
      simp only [manage_input_actions, reduceCtorEq, if_false, reduceIte]
      exact ih _

/-- C7.  In the bomb slice of `Player.react_to_inputs`, a player who holds
no multibomb, no throwing glove (the scenario's "no items") and whose tile
already holds a bomb — or whose allowance `bombs_left` is below 1 — gets
no new bomb added to the map's bomb list and keeps `bombs_left` unchanged,
for any list of input actions raised that tick: the `putting_bomb` intent
is never set by `__manage_input_actions` under these conditions, and the
multibomb and throw intents stay clear. -/
theorem claim_C7_no_double_bomb (s : GameState) (p : Player) (acts : List InputAction)
    (hcond : tile_has_bomb s p.tile = true ∨ p.bombs_left < 1)
    (hm : p.has_multibomb = false) (ht : p.has_throwing_glove = false) :
    (react_to_inputs_bomb_slice s p acts).1.bombs = s.bombs ∧
      (react_to_inputs_bomb_slice s p acts).2.bombs_left = p.bombs_left := by
  unfold react_to_inputs_bomb_slice
  obtain ⟨hpb, hmb, hthr⟩ := manage_input_actions_flags s p hcond hm ht
    (if p.disease == Disease.diarrhea then acts ++ [InputAction.bomb] else acts)
    { putting_bomb := false, putting_multibomb := false,
      throwing := false, bomb_was_pressed := false }
  simp only [hpb, hmb, hthr, Bool.false_and, Bool.false_eq_true, if_false, reduceIte]
  constructor
  · trivial
  · split <;> (try split) <;> rfl

/-- A map with a bomb on tile (1, 1), where `sample_player` stands. -/
def c7_state : GameState :=
  { tiles := List.replicate 11 (List.replicate 15 MapTile.init),
    bombs := [sample_bomb], players := [sample_player],
    number_of_blocks := 0, danger_map := fun _ => SAFE_DANGER_VALUE,
    danger_map_is_up_to_date := false }

/-- Witness for C7: the itemless `sample_player` standing on the bomb
presses the bomb key; nothing is added and the allowance is unchanged. -/
theorem claim_C7_witness :
    (tile_has_bomb c7_state sample_player.tile = true ∨ sample_player.bombs_left < 1) ∧
      sample_player.has_multibomb = false ∧
      sample_player.has_throwing_glove = false ∧
      ((react_to_inputs_bomb_slice c7_state sample_player [InputAction.bomb]).1.bombs =
          c7_state.bombs ∧
        (react_to_inputs_bomb_slice c7_state sample_player [InputAction.bomb]).2.bombs_left =
          sample_player.bombs_left) :=
  ⟨Or.inl (by decide), rfl, rfl,
    claim_C7_no_double_bomb c7_state sample_player [InputAction.bomb]
      (Or.inl (by decide)) rfl rfl⟩

/-- Counterexample to C9 as stated: a map-items list with more items than
block tiles does not succeed with the surplus dropped — the distribution
loop calls `random.choice` on the exhausted pool and fails (IndexError):
two items over a single block tile. -/
theorem claim_C9_counterexample :
    ([7] : List Nat).length < ([2, 3] : List Nat).length ∧
      place_map_items (fun _ => 0) [2, 3] [7] 0 = none := by
  decide

lemma getD_mem_of_lt {l : List Nat} {i : Nat} (h : i < l.length) : l.getD i 0 ∈ l := by
  rw [List.getD_eq_getElem _ _ h]
  exact List.getElem_mem h

lemma nodup_getD_not_mem_eraseIdx :
    ∀ (l : List Nat) (i : Nat), l.Nodup → i < l.length → l.getD i 0 ∉ l.eraseIdx i := by
  intro l
  induction l with
  | nil =>
    intro i _ h
    simp at h
  | cons x xs ih =>
    intro i hnd hlen
    cases i with
    | zero =>
      exact (List.nodup_cons.1 hnd).1
    | succ j =>
      intro hmem
      rcases List.mem_cons.1 hmem with h | h
      · have hj : j < xs.length := by simpa using hlen
        have hin : xs.getD j 0 ∈ xs := getD_mem_of_lt hj
        have h2 : xs.getD j 0 = x := h
        rw [h2] at hin
        exact (List.nodup_cons.1 hnd).1 hin
      · exact ih j (List.nodup_cons.1 hnd).2 (by simpa using hlen) h

/-- C9 (amended).  The item distribution of `GameMap.__init__` fails
(IndexError from `random.choice` on the exhausted block-tile pool)
whenever the map-items list is longer than the list of block tiles; when
it is not longer, the distribution succeeds, assigns every item, each
assigned tile comes from the pool and — the pool holding distinct tiles —
each block tile receives at most one hidden item. -/
theorem claim_C9_more_items_than_blocks (choice : Nat → Nat) :
    ∀ (items block_tiles : List Nat) (k : Nat),
      (block_tiles.length < items.length →
        place_map_items choice items block_tiles k = none) ∧
      (items.length ≤ block_tiles.length →
        ∃ l, place_map_items choice items block_tiles k = some l ∧
          l.length = items.length ∧ (∀ x ∈ l, x.1 ∈ block_tiles) ∧
          (block_tiles.Nodup → (l.map Prod.fst).Nodup)) := by
  intro items
  induction items with
  | nil =>
    intro bt k
    constructor
    · intro h
      exact absurd h (Nat.not_lt_zero _)
    · intro _
      exact ⟨[], rfl, rfl, by simp, by simp⟩
  | cons item rest ih =>
    intro bt k
    constructor
    · intro h
      cases bt with
      | nil => rfl
      | cons b bs =>
        simp only [place_map_items]
        have hidx : choice k % (b :: bs).length < (b :: bs).length :=
          Nat.mod_lt _ (by simp)
        have hlen : ((b :: bs).eraseIdx (choice k % (b :: bs).length)).length
            < rest.length := by
          rw [List.length_eraseIdx]
          simp only [hidx, if_true]
          simp only [List.length_cons] at h ⊢
          omega
        rw [(ih ((b :: bs).eraseIdx (choice k % (b :: bs).length)) (k + 1)).1 hlen]
    · intro h
      cases bt with
      | nil =>
        simp only [List.length_cons, List.length_nil] at h
        omega
      | cons b bs =>
        have hidx : choice k % (b :: bs).length < (b :: bs).length :=
          Nat.mod_lt _ (by simp)
        have hlen2 : rest.length ≤ ((b :: bs).eraseIdx (choice k % (b :: bs).length)).length := by
          rw [List.length_eraseIdx]
          simp only [hidx, if_true]
          simp only [List.length_cons] at h ⊢
          omega
        obtain ⟨l, hl, hll, hsub, hnd⟩ :=
          (ih ((b :: bs).eraseIdx (choice k % (b :: bs).length)) (k + 1)).2 hlen2
        refine ⟨((b :: bs).getD (choice k % (b :: bs).length) 0, item) :: l, ?_, ?_, ?_, ?_⟩
        · simp only [place_map_items, hl]
        · simp [hll]
        · intro x hx
          rcases List.mem_cons.1 hx with hx1 | hx2
          · rw [hx1]
            exact getD_mem_of_lt hidx
          · exact (List.eraseIdx_sublist (b :: bs) (choice k % (b :: bs).length)).subset
              (hsub x hx2)
        · intro hnodup
          simp only [List.map_cons]
          rw [List.nodup_cons]
          constructor
          · intro hmem
            rcases List.mem_map.1 hmem with ⟨x, hx, hfst⟩
            have hin : x.1 ∈ (b :: bs).eraseIdx (choice k % (b :: bs).length) := hsub x hx
            rw [hfst] at hin
            exact nodup_getD_not_mem_eraseIdx _ _ hnodup hidx hin
          · exact hnd (List.Nodup.sublist
              (List.eraseIdx_sublist (b :: bs) (choice k % (b :: bs).length)) hnodup)

/-- Witness for the amended C9: one item over two distinct block tiles
succeeds, two items over one block tile fail. -/
theorem claim_C9_witness :
    (([4, 9] : List Nat).length < ([5, 6, 8] : List Nat).length →
      place_map_items (fun _ => 1) [5, 6, 8] [4, 9] 0 = none) ∧
      (([5, 6] : List Nat).length ≤ ([4, 9, 11] : List Nat).length →
        ∃ l, place_map_items (fun _ => 1) [5, 6] [4, 9, 11] 0 = some l ∧
          l.length = ([5, 6] : List Nat).length ∧
          (∀ x ∈ l, x.1 ∈ ([4, 9, 11] : List Nat)) ∧
          (([4, 9, 11] : List Nat).Nodup → (l.map Prod.fst).Nodup)) :=
  ⟨(claim_C9_more_items_than_blocks (fun _ => 1) [5, 6, 8] [4, 9] 0).1,
    (claim_C9_more_items_than_blocks (fun _ => 1) [5, 6] [4, 9, 11] 0).2⟩
